import Mathlib

/-
Verification of the mrpyconvert series-to-BIDS mapping engine.

The definitions below are a shallow embedding of `mrpyconvert.py`:
  * Python dictionaries are association lists (insertion-ordered, unique
    keys), with in-place update modelled by `setAssoc`.
  * Python exceptions are the `PyError` sum, and fallible functions
    return `Except PyError _`.
  * Filesystem contents (directory listings, the participants.tsv rows,
    one representative DICOM's fields) are passed in explicitly; path
    manipulation keeps plain string concatenation with `/`.
  * The two module-level regexes (`subject_pattern`, `series_pattern`)
    are embedded as executable character-list matchers implementing the
    greedy `re.match` semantics of those concrete patterns.
-/

namespace Mrpyconvert

/-- Python exception kinds reachable in the embedded code paths. -/
inductive PyError where
  | valueError (msg : String)
  | keyError (key : String)
  | typeError (msg : String)
  | attributeError (msg : String)
  deriving DecidableEq, Repr

/-- Opening brace character, written via its code point. -/
def obr : Char := '\x7b'

/-- Closing brace character, written via its code point. -/
def cbr : Char := '\x7d'

/-- Valid datatypes, from `datatypes = [...]` in mrpyconvert.py. -/
def datatypes : List String := ["anat", "func", "dwi", "fmap", "meg", "eeg", "ieeg", "beh"]

/-- Entity keys in canonical order, from `entities = [...]`. -/
def entities : List String :=
  ["ses", "task", "acq", "ce", "rec", "dir", "run", "mod", "echo", "recording", "proc", "space"]

/-- Valid suffixes per datatype, from the `suffixes` dict; note the dict
has keys `anat, fmap, dwi, func, perf` only. -/
def suffixes : List (String × List String) :=
  [("anat", ["T1w", "T2w", "FLAIR", "T1rho", "T1map", "T2map", "T2starw",
             "T2starmap", "PDw", "PDmap", "PDT2", "inplaneT1", "inplaneT2",
             "angio", "defacemask"]),
   ("fmap", ["phasediff", "phase1", "phase2", "magnitude1", "magnitude2",
             "magnitude", "fieldmap", "epi"]),
   ("dwi", ["dwi", "bvec", "bval"]),
   ("func", ["bold", "cbv", "phase", "sbref", "events", "physio", "stim"]),
   ("perf", ["asl", "m0scan"])]

/-- First-match lookup in an insertion-ordered association list
(Python dict read `d[k]` / `k in d`). -/
def lookupAssoc {α : Type} : List (String × α) → String → Option α
  | [], _ => none
  | (k, v) :: rest, key => if k = key then some v else lookupAssoc rest key

/-- In-place update of an association list (Python dict write `d[k] = v`):
replaces the value at an existing key keeping its position, else appends. -/
def setAssoc {α : Type} : List (String × α) → String → α → List (String × α)
  | [], key, v => [(key, v)]
  | (k, w) :: rest, key, v =>
    if k = key then (key, v) :: rest else (k, w) :: setAssoc rest key v

/-- Matcher for `subject_pattern = re.compile('(.*)_([0-9]{8})(.*)')` under
`re.match`: returns `(group1, group2)` as character lists.  The leading
greedy `.*` means the rightmost underscore followed by eight digits wins. -/
def subjAux2 : List Char → Option (List Char × List Char)
  | [] => none
  | c :: cs =>
    match subjAux2 cs with
    | some (g, d) => some (c :: g, d)
    | none =>
      if c = '_' ∧ 8 ≤ cs.length ∧ (cs.take 8).all Char.isDigit then
        some ([], cs.take 8)
      else none

/-- Truth of `re.match(subject_pattern, s)`. -/
def matchesSubject (s : String) : Bool := (subjAux2 s.data).isSome

/-- Embeds `get_subject_name`: group 1 of the subject pattern with
non-alphanumeric characters removed (`re.sub('[^0-9a-zA-Z]+', '', name)`). -/
def get_subject_name (directory : String) : Option String :=
  (subjAux2 directory.data).map (fun g => String.mk (g.1.filter Char.isAlphanum))

/-- Attempt to read `Series_([0-9]*)_(.*)` at the head of the character
list, returning `(run digits, series description)`. -/
def parseAt (cs : List Char) : Option (String × String) :=
  if ("Series_".data).isPrefixOf cs then
    let rest := cs.drop 7
    let d := rest.takeWhile Char.isDigit
    match rest.drop d.length with
    | '_' :: tail => some (String.mk d, String.mk tail)
    | _ => none
  else none

/-- Rightmost-first scan implementing the greedy leading `.*` of
`series_pattern = re.compile('.*Series_([0-9]*)_(.*)')`. -/
def matchLast : List Char → Option (String × String)
  | [] => none
  | c :: cs =>
    match matchLast cs with
    | some r => some r
    | none => parseAt (c :: cs)

/-- Embeds `re.match(series_pattern, s).groups()`:
`some (run, series_name)` when the pattern matches. -/
def parseSeries (s : String) : Option (String × String) := matchLast s.data

/-- Embeds Python `s.startswith(p)`. -/
def startsWithStr (s p : String) : Bool := p.data.isPrefixOf s.data

/-- Decimal digits of a natural number, most significant first;
the first argument is structural fuel (always sufficient at `n + 1`). -/
def natDigitsAux : Nat → Nat → List Char
  | 0, _ => []
  | fuel + 1, n =>
    if n < 10 then [Char.ofNat (48 + n)]
    else natDigitsAux fuel (n / 10) ++ [Char.ofNat (48 + n % 10)]

/-- Decimal digit string of a natural number. -/
def natToStr (n : Nat) : String := String.mk (natDigitsAux (n + 1) n)

/-- Embeds Python `'{:02d}'.format(n)`: zero-pad to width two. -/
def pad2 (n : Nat) : String := if n < 10 then "0" ++ natToStr n else natToStr n

/-- Embeds `int()` applied to a string of decimal digits. -/
def toNatDigits (cs : List Char) : Nat :=
  cs.foldl (fun acc c => acc * 10 + (c.toNat - 48)) 0

/-- An entity chain rule: `EntityChain` objects hold a datatype, a
suffix, and an optional entity dictionary (`chain: dict = None`). -/
structure EntityChain where
  datatype : String
  suffix : String
  chain : Option (List (String × String))
  deriving DecidableEq, Repr

/-- Embeds `EntityChain.__init__`: validation happens only when
`nonstandard` is false.  The datatype membership test raises `ValueError`;
the subsequent `suffixes[datatype]` subscript raises `KeyError` when the
datatype has no suffix table; the suffix membership test raises
`ValueError`. -/
def EntityChain.init (datatype sfx : String) (chain : Option (List (String × String)))
    (nonstandard : Bool) : Except PyError EntityChain :=
  if nonstandard = false then
    if datatypes.contains datatype = false then
      .error (.valueError ("Unknown data type " ++ datatype))
    else
      match lookupAssoc suffixes datatype with
      | none => .error (.keyError datatype)
      | some allowed =>
        if allowed.contains sfx = false then
          .error (.valueError ("Unknown suffix " ++ sfx ++ " for data type " ++ datatype))
        else .ok ⟨datatype, sfx, chain⟩
  else .ok ⟨datatype, sfx, chain⟩

/-- Concatenation of a list of strings (repeated `+=` in the source). -/
def joinStr : List String → String
  | [] => ""
  | s :: rest => s ++ joinStr rest

/-- Filename segments contributed by the entity chain: the embedding of
the comprehension `[(k, self.chain[k]) for k in entities if k in self.chain]`
with each pair rendered as `'{}-{}_'.format(key, value)`. -/
def entitySegments (c : List (String × String)) : List String :=
  entities.filterMap (fun k => (lookupAssoc c k).map (fun v => k ++ "-" ++ v ++ "_"))

/-- Embeds `EntityChain.get_format_string`: `'sub-{}_'`, then one segment
per entity key present in the chain iterated in `entities` order (skipped
entirely when the chain is `None` or empty, matching `if self.chain:`),
then the suffix. -/
def get_format_string (ec : EntityChain) : String :=
  let base := "sub-\x7b\x7d_"
  let mid :=
    match ec.chain with
    | none => base
    | some c => if c.isEmpty then base else base ++ joinStr (entitySegments c)
  mid ++ ec.suffix

/-- Embeds `str.format` with positional auto-numbered fields: each
`\x7b\x7d` consumes the next argument; surplus arguments are ignored;
a field with no remaining argument or a stray brace yields `none`. -/
def pyFormatAux : List Char → List String → Option (List Char)
  | [], _ => some []
  | c :: rest, args =>
    if c = obr then
      match rest, args with
      | c2 :: rest2, a :: args2 =>
        if c2 = cbr then (pyFormatAux rest2 args2).map (fun t => a.data ++ t) else none
      | _, _ => none
    else if c = cbr then none
    else (pyFormatAux rest args).map (fun t => c :: t)

/-- String-level `format`. -/
def pyFormat (s : String) (args : List String) : Option String :=
  (pyFormatAux s.data args).map String.mk

/-- True when the string contains no brace characters, so `format`
treats it as literal text. -/
def braceFree (s : String) : Bool := s.data.all (fun ch => ch ≠ obr ∧ ch ≠ cbr)

/-- The mapping-rule collection: `BidsDict` holds the series-description
to entity-chain dictionary and the two mode flags. -/
structure BidsDict where
  chain_dict : List (String × EntityChain)
  autorun : Bool
  autosession : Bool
  deriving DecidableEq, Repr

/-- Embeds `BidsDict.add`: construct the `EntityChain` (which may raise),
store it under the series description, then under `autorun` assign the
run placeholder into the stored object's chain — a `TypeError` when the
chain is `None`. -/
def BidsDict.add (bd : BidsDict) (series_description datatype sfx : String)
    (chain : Option (List (String × String))) (nonstandard : Bool) :
    Except PyError BidsDict :=
  match EntityChain.init datatype sfx chain nonstandard with
  | .error e => .error e
  | .ok ec =>
    let bd1 := { bd with chain_dict := setAssoc bd.chain_dict series_description ec }
    if bd.autorun then
      match ec.chain with
      | none => .error (.typeError "NoneType object does not support item assignment")
      | some c =>
        .ok { bd1 with
              chain_dict := setAssoc bd1.chain_dict series_description
                { ec with chain := some (setAssoc c "run" "\x7b\x7d") } }
    else .ok bd1

/-- Last path component (`os.path.basename`). -/
def basename (p : String) : String :=
  String.mk ((p.data.reverse.takeWhile (fun c => c ≠ '/')).reverse)

/-- Embeds `fix_json`: the jq read-modify-write command pair. -/
def fix_json (filename key value : String) : String :=
  "jq \x27." ++ key ++ "=\"" ++ value ++ "\"\x27 " ++ filename ++ " > /tmp/" ++ basename filename
    ++ "\n" ++ "mv /tmp/" ++ basename filename ++ " " ++ filename ++ "\n"

/-- Embeds `fix_dwi_files`: the bval/bvec renaming loop. -/
def fix_dwi_files (dirname : String) : String :=
  "for x in " ++ dirname ++ "/*dwi.bv*\n" ++ "do mv $x $\x7bx//dwi.\x7d\n" ++ "done\n"

/-- Fallback string for a `None` subject name interpolated by Python
string formatting. -/
def optName (o : Option String) : String :=
  match o with
  | some n => n
  | none => "None"

/-- Per-series body of the loop in `generate_cs_command`.  Returns
`some command` when the series matched a rule (the `command +=` branch),
`none` when the match list is empty, and the possibly mutated
`bids_dict` (the assignment `echain.chain['run'] = ...` writes through
the shared `EntityChain` object held in `chain_dict`). -/
def csStep (subjectdir name subj_dir : String) (json_mod : List (String × String))
    (dcm2niix_flags : String) (bd : BidsDict) (series : String) :
    Except PyError (Option String × BidsDict) :=
  match parseSeries series with
  | none => .error (.attributeError "NoneType object has no attribute groups")
  | some (run, series_name) =>
    match bd.chain_dict.filter (fun kv => startsWithStr series_name kv.1) with
    | [] => .ok (none, bd)
    | (k0, echain) :: _ =>
      match echain.chain with
      | none => .error (.typeError "argument of type NoneType is not iterable")
      | some c =>
        let output_dir :=
          match lookupAssoc c "ses" with
          | some s => subj_dir ++ "/ses-" ++ s ++ "/" ++ echain.datatype
          | none => subj_dir ++ "/" ++ echain.datatype
        if run = "" then .error (.valueError "invalid literal for int with base 10")
        else
          let run2 := pad2 (toNatDigits run.data)
          let c2 := setAssoc c "run" run2
          let ec2 := { echain with chain := some c2 }
          let bd2 := { bd with chain_dict := setAssoc bd.chain_dict k0 ec2 }
          match pyFormat (get_format_string ec2) [name] with
          | none => .error (.valueError "unmatched format field")
          | some format_string =>
            let cmd := "dcm2niix -ba n -l o -o \"" ++ output_dir ++ "\" -f " ++ format_string
              ++ " " ++ dcm2niix_flags ++ " \"" ++ subjectdir ++ "/" ++ series ++ "\"\n"
            let json_file := output_dir ++ "/" ++ format_string ++ ".json"
            let cmd := cmd ++
              (match lookupAssoc c2 "task" with
               | some t => fix_json json_file "TaskName" t
               | none => "")
            let cmd := cmd ++ joinStr (json_mod.map (fun kv => fix_json json_file kv.1 kv.2))
            let cmd := cmd ++ (if echain.datatype = "dwi" then fix_dwi_files output_dir else "")
            .ok (some cmd, bd2)

/-- The `for series in series_dirs` loop of `generate_cs_command`,
collecting the command text contributed by each matched series. -/
def csLoop (subjectdir name subj_dir : String) (json_mod : List (String × String))
    (dcm2niix_flags : String) : BidsDict → List String →
    Except PyError (List String × BidsDict)
  | bd, [] => .ok ([], bd)
  | bd, s :: rest =>
    match csStep subjectdir name subj_dir json_mod dcm2niix_flags bd s with
    | .error e => .error e
    | .ok (copt, bd1) =>
      match csLoop subjectdir name subj_dir json_mod dcm2niix_flags bd1 rest with
      | .error e => .error e
      | .ok (cmds, bd2) =>
        .ok ((match copt with | some c => [c] | none => []) ++ cmds, bd2)

/-- Embeds `generate_cs_command`: the subject name comes from
`get_subject_name(subjectdir)`, the series directory listing
(`subjectdir.glob('Series*')`) is passed in as `series_dirs`, and the
result pairs the accumulated command string with the updated
`bids_dict`. -/
def generate_cs_command (subjectdir bidsdir : String) (bd : BidsDict)
    (json_mod : List (String × String)) (dcm2niix_flags : String)
    (series_dirs : List String) : Except PyError (String × BidsDict) :=
  let name := optName (get_subject_name subjectdir)
  let subj_dir := bidsdir ++ "/sub-" ++ name
  match csLoop subjectdir name subj_dir json_mod dcm2niix_flags bd series_dirs with
  | .error e => .error e
  | .ok (cmds, bd2) => .ok (joinStr cmds, bd2)

/-- Per-match well-formedness of an `EntityChain` for command emission:
the chain dictionary exists and no brace characters occur where `format`
would misread them. -/
def okEC (ec : EntityChain) : Bool :=
  match ec.chain with
  | none => false
  | some c => braceFree ec.suffix && c.all (fun kv => braceFree kv.2)

/-- One row of `participants.tsv` (columns participant_id, age, sex). -/
structure PartRow where
  pid : String
  sex : String
  age : Nat
  deriving DecidableEq, Repr

/-- Embeds `append_participant` at the level of the participants file:
`none` models a missing `participants.tsv` (created empty before the
append); when the file exists and already lists `sub-<name>` the
function returns with the file untouched; otherwise one row built from
the representative DICOM's PatientSex/PatientAge is appended. -/
def append_participant (name sex : String) (age : Nat)
    (file : Option (List PartRow)) : Option (List PartRow) :=
  match file with
  | some rows =>
    if (rows.map PartRow.pid).contains ("sub-" ++ name) then some rows
    else some (rows ++ [⟨"sub-" ++ name, sex, age⟩])
  | none => some [⟨"sub-" ++ name, sex, age⟩]

/-- One subject-level directory of the sorted DICOM tree: its name, the
`Series_*` entries inside it, and the sex/age fields of a representative
readable DICOM file. -/
structure SubjDir where
  name : String
  series : List String
  sex : String
  age : Nat
  deriving DecidableEq, Repr

/-- One study record built by `Converter.__init__`
(`Study = namedtuple('Study', ['path', 'subject', 'date', 'series'])`). -/
structure Study where
  path : String
  subject : String
  date : String
  series : List String
  deriving DecidableEq, Repr

/-- Error-propagating map over a list (the list comprehensions of the
source, which surface the first exception). -/
def mapE {α β : Type} (f : α → Except PyError β) : List α → Except PyError (List β)
  | [] => .ok []
  | x :: rest =>
    match f x with
    | .error e => .error e
    | .ok y =>
      match mapE f rest with
      | .error e => .error e
      | .ok ys => .ok (y :: ys)

/-- Stable insertion into a string-sorted list (ascending). -/
def insortStr (s : String) : List String → List String
  | [] => [s]
  | t :: rest => if s < t then s :: t :: rest else t :: insortStr s rest

/-- Ascending sort of strings, the embedding of Python `sorted`. -/
def sortStr (l : List String) : List String := l.foldr insortStr []

/-- Deduplication (the `set` constructor; order is irrelevant because
every use sorts afterwards). -/
def uniq : List String → List String
  | [] => []
  | x :: rest => if rest.contains x then uniq rest else x :: uniq rest

/-- Duplicate report of `Converter.__init__`: for each distinct series
description in sorted order and each study, a `(count, series, study
path)` entry when the study holds that description more than once. -/
def dup_report (studies : List Study) : List String → List (Nat × String × String)
  | [] => []
  | s :: rest =>
    (studies.filterMap (fun st =>
      let c := st.series.count s
      if 1 < c then some (c, s, st.path) else none)) ++ dup_report studies rest

/-- State established by `Converter.__init__`: `all_studies` stays
`None` (with the printed warning) when no directory matches the subject
pattern; otherwise the parsed study list plus the duplicate-series
warnings that the constructor prints. -/
structure ConverterState where
  all_studies : Option (List Study)
  warned_no_studies : Bool
  dup_warnings : List (Nat × String × String)
  deriving DecidableEq, Repr

/-- Embeds `Converter.__init__` over a directory tree given as the list
of walked directories with their entries.  When no directory name
matches `subject_pattern` the constructor prints `'No study directories
found, dicoms not sorted'` and returns normally. -/
def converter_init (dirs : List SubjDir) : Except PyError ConverterState :=
  let study_dirs := dirs.filter (fun p => matchesSubject p.name)
  if study_dirs.isEmpty then .ok ⟨none, true, []⟩
  else
    match mapE (fun p =>
      match subjAux2 p.name.data with
      | none => .error (.attributeError "NoneType object has no attribute group")
      | some g =>
        match mapE (fun e =>
          match parseSeries e with
          | none => .error (.attributeError "NoneType object has no attribute group")
          | some r => .ok r.2) p.series with
        | .error e => .error e
        | .ok series => .ok (⟨p.name, String.mk g.1, String.mk g.2, series⟩ : Study))
      study_dirs with
    | .error e => .error e
    | .ok studies =>
      let all_series := sortStr (uniq (studies.foldr (fun st acc => st.series ++ acc) []))
      .ok ⟨some studies, false, dup_report studies all_series⟩

/-- Stable insertion of a subject directory by name. -/
def insortSubj (x : SubjDir) : List SubjDir → List SubjDir
  | [] => [x]
  | t :: rest => if x.name < t.name then x :: t :: rest else t :: insortSubj x rest

/-- Embeds `sorted(subjectdirs)`. -/
def sortSubj (l : List SubjDir) : List SubjDir := l.foldr insortSubj []

/-- Per-subject loop shared by `convert` and `write_slurm_script`:
append the participant (when enabled) and emit this subject's command
via `generate_cs_command`, threading the participants file and the
(mutated) `bids_dict`. -/
def convertLoop (bidsdir : String) (json_mod : List (String × String))
    (dcm2niix_flags : String) (participant_file : Bool) :
    List SubjDir → Option (List PartRow) → BidsDict →
    Except PyError (List String × Option (List PartRow) × BidsDict)
  | [], parts, bd => .ok ([], parts, bd)
  | sd :: rest, parts, bd =>
    let parts1 :=
      if participant_file then
        append_participant (optName (get_subject_name sd.name)) sd.sex sd.age parts
      else parts
    match generate_cs_command sd.name bidsdir bd json_mod dcm2niix_flags sd.series with
    | .error e => .error e
    | .ok (cmd, bd1) =>
      match convertLoop bidsdir json_mod dcm2niix_flags participant_file rest parts1 bd1 with
      | .error e => .error e
      | .ok (cmds, parts2, bd2) => .ok (cmd :: cmds, parts2, bd2)

/-- Embeds `convert` (command construction; the subprocess or slurm
dispatch of the finished commands and the dataset-description write are
outside the model).  Raises `ValueError` when no directory matches the
subject pattern; otherwise prefixes each subject command with the
`module load` lines and processes subjects in sorted order. -/
def convert (tree : List SubjDir) (bidsdir : String) (bd : BidsDict)
    (participant_file : Bool) (json_mod : List (String × String))
    (dcm2niix_flags : String) (lmod : List String) (parts : Option (List PartRow)) :
    Except PyError (List String × Option (List PartRow) × BidsDict) :=
  let subjectdirs := tree.filter (fun s => matchesSubject s.name)
  if subjectdirs.isEmpty then
    .error (.valueError "Unable to find subject level directories")
  else
    let command_base := joinStr (lmod.map (fun m => "module load " ++ m ++ "\n"))
    match convertLoop bidsdir json_mod dcm2niix_flags participant_file
        (sortSubj subjectdirs) parts bd with
    | .error e => .error e
    | .ok (cmds, parts2, bd2) => .ok (cmds.map (fun c => command_base ++ c), parts2, bd2)

/-- Embeds `write_slurm_script` (script text construction; the file
handle is outside the model).  Raises `ValueError` when no directory
matches the subject pattern; otherwise writes the `module load` lines
followed by each sorted subject's command. -/
def write_slurm_script (tree : List SubjDir) (bidsdir : String) (bd : BidsDict)
    (participant_file : Bool) (json_mod : List (String × String))
    (dcm2niix_flags : String) (lmod : List String) (parts : Option (List PartRow)) :
    Except PyError (List String × Option (List PartRow) × BidsDict) :=
  let subjectdirs := tree.filter (fun s => matchesSubject s.name)
  if subjectdirs.isEmpty then
    .error (.valueError "Unable to find subject level directories")
  else
    match convertLoop bidsdir json_mod dcm2niix_flags participant_file
        (sortSubj subjectdirs) parts bd with
    | .error e => .error e
    | .ok (cmds, parts2, bd2) =>
      .ok (lmod.map (fun m => "module load " ++ m) ++ cmds, parts2, bd2)

/-- Substring occurrence test on character lists (used to state the
substring-versus-leading-match distinction). -/
def containsStr (n : List Char) : List Char → Bool
  | [] => n.isPrefixOf []
  | c :: rest => n.isPrefixOf (c :: rest) || containsStr n rest

/-- Appending preserves the underlying character data. -/
theorem data_append (s t : String) : (s ++ t).data = s.data ++ t.data := rfl

/-- Appending the empty string is the identity. -/
theorem append_empty_str (s : String) : s ++ "" = s := by
  cases s with
  | mk l => exact congrArg String.mk (List.append_nil l)

/-- A string with a nonempty left part stays nonempty under append. -/
theorem append_ne_empty (s t : String) (h : s ≠ "") : s ++ t ≠ "" := by
  intro he
  apply h
  cases s with
  | mk l =>
    cases t with
    | mk m =>
      have hd : l ++ m = [] := congrArg String.data he
      rcases List.append_eq_nil.mp hd with ⟨h1, _⟩
      exact congrArg String.mk h1

/-- Brace-freeness distributes over append. -/
theorem braceFree_append (s t : String) :
    braceFree (s ++ t) = (braceFree s && braceFree t) := by
  simp [braceFree, data_append, List.all_append]

/-- Brace-freeness of a concatenation of brace-free strings. -/
theorem braceFree_joinStr {l : List String} (h : ∀ x ∈ l, braceFree x = true) :
    braceFree (joinStr l) = true := by
  induction l with
  | nil => decide
  | cons x rest ih =>
    have hx := h x (by simp)
    have hr := ih (fun y hy => h y (by simp [hy]))
    simp [joinStr, braceFree_append, hx, hr]

/-- Membership characterization of `containsStr`. -/
theorem containsStr_iff (n h : List Char) :
    containsStr n h = true ↔ ∃ s t, s ++ n ++ t = h := by
  induction h with
  | nil =>
    simp only [containsStr]
    constructor
    · intro hp
      have := List.isPrefixOf_iff_prefix.mp hp
      rcases this with ⟨t, ht⟩
      exact ⟨[], t, by simpa using ht⟩
    · rintro ⟨s, t, hst⟩
      rcases List.append_eq_nil.mp hst with ⟨h1, _⟩
      rcases List.append_eq_nil.mp h1 with ⟨_, h3⟩
      subst h3
      simp [List.isPrefixOf]
  | cons c rest ih =>
    constructor
    · intro hc
      rcases Bool.or_eq_true_iff.mp hc with hp | hr
      · rcases List.isPrefixOf_iff_prefix.mp hp with ⟨t, ht⟩
        exact ⟨[], t, by simpa using ht⟩
      · rcases ih.mp hr with ⟨s, t, hst⟩
        exact ⟨c :: s, t, by simp [hst]⟩
    · rintro ⟨s, t, hst⟩
      cases s with
      | nil =>
        have hpre : List.IsPrefix n (c :: rest) := ⟨t, by simpa using hst⟩
        simp [containsStr, List.isPrefixOf_iff_prefix.mpr hpre]
      | cons c' s' =>
        have hc' : c' = c := by
          have := congrArg (fun l => l.head?) hst
          simpa using this
        subst hc'
        have hrest : s' ++ n ++ t = rest := by
          have := congrArg (fun l => l.tail) hst
          simpa using this
        simp [containsStr, ih.mpr ⟨s', t, hrest⟩]

/-- A successful association lookup comes from a pair of the list. -/
theorem lookupAssoc_mem {α : Type} {c : List (String × α)} {k : String} {v : α}
    (h : lookupAssoc c k = some v) : (k, v) ∈ c := by
  induction c with
  | nil => simp [lookupAssoc] at h
  | cons kv rest ih =>
    obtain ⟨k', w⟩ := kv
    by_cases he : k' = k
    · subst he
      simp [lookupAssoc] at h
      simp [h]
    · simp [lookupAssoc, he] at h
      exact List.mem_cons_of_mem _ (ih h)

/-- Updating a key makes it look up to the new value. -/
theorem lookupAssoc_setAssoc_self {α : Type} (c : List (String × α)) (k : String) (v : α) :
    lookupAssoc (setAssoc c k v) k = some v := by
  induction c with
  | nil => simp [setAssoc, lookupAssoc]
  | cons kv rest ih =>
    obtain ⟨k', w⟩ := kv
    by_cases he : k' = k
    · subst he
      simp [setAssoc, lookupAssoc]
    · simp [setAssoc, lookupAssoc, he, ih]

/-- Updating one key leaves lookups of other keys unchanged. -/
theorem lookupAssoc_setAssoc_ne {α : Type} (c : List (String × α)) (k key : String) (v : α)
    (h : key ≠ k) : lookupAssoc (setAssoc c k v) key = lookupAssoc c key := by
  induction c with
  | nil => simp [setAssoc, lookupAssoc, Ne.symm h]
  | cons kv rest ih =>
    obtain ⟨k', w⟩ := kv
    by_cases he : k' = k
    · subst he
      simp [setAssoc, lookupAssoc, Ne.symm h]
    · simp [setAssoc, lookupAssoc, he, ih]

/-- Every pair of an updated association list is an old pair or the
inserted one. -/
theorem setAssoc_mem {α : Type} {c : List (String × α)} {k : String} {v : α} {kv : String × α}
    (h : kv ∈ setAssoc c k v) : kv ∈ c ∨ kv = (k, v) := by
  induction c with
  | nil =>
    simp [setAssoc] at h
    simp [h]
  | cons kv' rest ih =>
    obtain ⟨k', w⟩ := kv'
    by_cases he : k' = k
    · subst he
      simp [setAssoc] at h
      rcases h with h | h
      · right; simp [h]
      · left; exact List.mem_cons_of_mem _ h
    · simp [setAssoc, he] at h
      rcases h with h | h
      · left; simp [h]
      · rcases ih h with h' | h'
        · left; exact List.mem_cons_of_mem _ h'
        · right; exact h'

/-- Digits produced by `natDigitsAux` are never braces. -/
theorem natDigitsAux_bf (fuel : Nat) : ∀ n : Nat, ∀ c ∈ natDigitsAux fuel n,
    c ≠ obr ∧ c ≠ cbr := by
  induction fuel with
  | zero => intro n c hc; simp [natDigitsAux] at hc
  | succ fuel ih =>
    intro n c hc
    rw [natDigitsAux] at hc
    by_cases h10 : n < 10
    · rw [if_pos h10] at hc
      simp at hc
      subst hc
      interval_cases n <;> decide
    · rw [if_neg h10] at hc
      rcases List.mem_append.mp hc with h | h
      · exact ih (n / 10) c h
      · simp at h
        subst h
        have hm : n % 10 < 10 := Nat.mod_lt _ (by norm_num)
        generalize n % 10 = m at hm ⊢
        interval_cases m <;> decide

/-- The zero-padded run number contains no braces. -/
theorem pad2_bf (n : Nat) : braceFree (pad2 n) = true := by
  have hns : braceFree (natToStr n) = true := by
    simp only [braceFree, natToStr, List.all_eq_true]
    intro c hc
    have := natDigitsAux_bf (n + 1) n c hc
    simpa [decide_eq_true_iff] using this
  unfold pad2
  by_cases h : n < 10
  · rw [if_pos h, braceFree_append, hns]
    decide
  · rw [if_neg h]
    exact hns

/-- Unfolding of `pyFormatAux` at an ordinary (non-brace) character. -/
theorem pyFormatAux_cons_ne (c : Char) (rest : List Char) (args : List String)
    (h1 : c ≠ obr) (h2 : c ≠ cbr) :
    pyFormatAux (c :: rest) args = (pyFormatAux rest args).map (fun t => c :: t) := by
  cases rest with
  | nil => cases args <;> simp [pyFormatAux, h1, h2]
  | cons c2 rest2 => cases args <;> simp [pyFormatAux, h1, h2]

/-- Unfolding of `pyFormatAux` at a replacement field with an argument. -/
theorem pyFormatAux_field (rest : List Char) (a : String) (args : List String) :
    pyFormatAux (obr :: cbr :: rest) (a :: args)
      = (pyFormatAux rest args).map (fun t => a.data ++ t) := by
  simp [pyFormatAux]

/-- Formatting a brace-free template piece passes it through verbatim. -/
theorem pyFormatAux_bf (pre : List Char) (cs : List Char) (args : List String)
    (h : ∀ c ∈ pre, c ≠ obr ∧ c ≠ cbr) :
    pyFormatAux (pre ++ cs) args = (pyFormatAux cs args).map (fun t => pre ++ t) := by
  induction pre with
  | nil =>
    cases hx : pyFormatAux cs args <;> simp [hx]
  | cons c pre ih =>
    have hc := h c (by simp)
    have hrest : ∀ c' ∈ pre, c' ≠ obr ∧ c' ≠ cbr := fun c' hc' => h c' (by simp [hc'])
    rw [List.cons_append, pyFormatAux_cons_ne c _ _ hc.1 hc.2, ih hrest]
    cases pyFormatAux cs args <;> simp

/-- Formatting a brace-free string with no arguments returns it unchanged. -/
theorem pyFormatAux_bf_id (cs : List Char) (args : List String)
    (h : ∀ c ∈ cs, c ≠ obr ∧ c ≠ cbr) :
    pyFormatAux cs args = some cs := by
  have := pyFormatAux_bf cs [] args h
  simpa [pyFormatAux] using this

/-- Uniform shape of the produced format string, with the empty-chain
truthiness branch folded away. -/
theorem get_format_string_eq (dt sfx : String) (c : List (String × String)) :
    get_format_string ⟨dt, sfx, some c⟩
      = "sub-\x7b\x7d_" ++ joinStr (entitySegments c) ++ sfx := by
  cases c with
  | nil =>
    have hseg : entitySegments [] = [] := rfl
    simp [get_format_string, hseg, joinStr, append_empty_str]
  | cons kv rest => rfl

/-- Entity keys contain no braces. -/
theorem entities_bf : ∀ k ∈ entities, braceFree k = true := by decide

/-- Every filename segment is brace-free when the chain values are. -/
theorem entitySegments_bf (c : List (String × String))
    (hbfv : ∀ kv ∈ c, braceFree kv.2 = true) :
    ∀ s ∈ entitySegments c, braceFree s = true := by
  intro s hs
  simp only [entitySegments, List.mem_filterMap] at hs
  obtain ⟨k, hk, hmap⟩ := hs
  rw [Option.map_eq_some'] at hmap
  obtain ⟨v, hv, rfl⟩ := hmap
  have hkbf := entities_bf k hk
  have hvbf := hbfv (k, v) (lookupAssoc_mem hv)
  simp [braceFree_append, hkbf, hvbf]
  decide

/-- Brace-freeness hypotheses as character-level facts. -/
theorem braceFree_chars {s : String} (h : braceFree s = true) :
    ∀ c ∈ s.data, c ≠ obr ∧ c ≠ cbr := by
  intro c hc
  simp only [braceFree, List.all_eq_true] at h
  have := h c hc
  simpa [decide_eq_true_iff] using this

/-- Formatting the produced format string with the subject name: the
single replacement field receives the name and everything else passes
through, yielding the BIDS filename. -/
theorem format_ok (name dt sfx : String) (c : List (String × String))
    (hbfv : ∀ kv ∈ c, braceFree kv.2 = true)
    (hbfs : braceFree sfx = true) :
    pyFormat (get_format_string ⟨dt, sfx, some c⟩) [name]
      = some ("sub-" ++ name ++ "_" ++ joinStr (entitySegments c) ++ sfx) := by
  rw [get_format_string_eq]
  have hrest_bf : braceFree ("_" ++ (joinStr (entitySegments c) ++ sfx)) = true := by
    rw [braceFree_append, braceFree_append,
        braceFree_joinStr (entitySegments_bf c hbfv), hbfs]
    decide
  have hdata : ("sub-\x7b\x7d_" ++ joinStr (entitySegments c) ++ sfx).data
      = "sub-".data ++ (obr :: cbr :: ("_" ++ (joinStr (entitySegments c) ++ sfx)).data) := by
    simp [data_append]
    exact ⟨rfl, rfl⟩
  unfold pyFormat
  rw [hdata]
  rw [pyFormatAux_bf "sub-".data _ [name] (by decide)]
  rw [pyFormatAux_field]
  rw [pyFormatAux_bf_id _ [] (braceFree_chars hrest_bf)]
  simp only [Option.map_some']
  congr 1
  cases name with
  | mk nl =>
    apply congrArg String.mk
    simp [data_append]

/-- Absent keys are exactly the keys outside the projection. -/
theorem lookupAssoc_eq_none_iff {α : Type} (c : List (String × α)) (k : String) :
    lookupAssoc c k = none ↔ k ∉ c.map Prod.fst := by
  induction c with
  | nil => simp [lookupAssoc]
  | cons kv rest ih =>
    obtain ⟨k', w⟩ := kv
    by_cases he : k' = k
    · subst he
      simp [lookupAssoc]
    · simp [lookupAssoc, he, ih, Ne.symm he]

/-- With duplicate-free keys, lookup is membership. -/
theorem lookupAssoc_eq_some_iff {α : Type} (c : List (String × α))
    (hnd : (c.map Prod.fst).Nodup) (k : String) (v : α) :
    lookupAssoc c k = some v ↔ (k, v) ∈ c := by
  induction c with
  | nil => simp [lookupAssoc]
  | cons kv rest ih =>
    obtain ⟨k', w⟩ := kv
    simp only [List.map_cons, List.nodup_cons] at hnd
    by_cases he : k' = k
    · subst he
      simp only [lookupAssoc, if_pos rfl, List.mem_cons]
      constructor
      · intro hv
        left
        simp at hv
        simp [hv]
      · rintro (hv | hv)
        · simp [Prod.ext_iff] at hv
          simp [hv]
        · exact absurd (List.mem_map_of_mem Prod.fst hv) hnd.1
    · simp only [lookupAssoc, if_neg he, List.mem_cons]
      rw [ih hnd.2]
      constructor
      · intro hv; right; exact hv
      · rintro (hv | hv)
        · exact absurd (congrArg Prod.fst hv).symm he
        · exact hv

/-- With duplicate-free keys, lookup is invariant under permutation of
the association list. -/
theorem lookupAssoc_perm {α : Type} {c c' : List (String × α)} (hp : c.Perm c')
    (hnd : (c.map Prod.fst).Nodup) (k : String) :
    lookupAssoc c' k = lookupAssoc c k := by
  have hnd' : (c'.map Prod.fst).Nodup := ((hp.map Prod.fst).nodup_iff).mp hnd
  cases h : lookupAssoc c k with
  | none =>
    rw [lookupAssoc_eq_none_iff] at h ⊢
    intro hm
    exact h (((hp.map Prod.fst).mem_iff).mpr hm)
  | some v =>
    rw [lookupAssoc_eq_some_iff c hnd] at h
    rw [lookupAssoc_eq_some_iff c' hnd']
    exact hp.mem_iff.mp h

/-- Pointwise-equal partial maps give equal filterMap results. -/
theorem filterMap_congr_mem {α β : Type} (l : List α) (f g : α → Option β)
    (h : ∀ a ∈ l, f a = g a) : l.filterMap f = l.filterMap g := by
  induction l with
  | nil => rfl
  | cons a rest ih =>
    rw [List.filterMap_cons, List.filterMap_cons, h a (by simp),
        ih (fun a' ha' => h a' (by simp [ha']))]

/-- Entity segments depend only on the key-value mapping, not on the
insertion order of the chain. -/
theorem entitySegments_perm {c c' : List (String × String)} (hp : c.Perm c')
    (hnd : (c.map Prod.fst).Nodup) : entitySegments c' = entitySegments c := by
  unfold entitySegments
  exact filterMap_congr_mem _ _ _ (fun k _ => by rw [lookupAssoc_perm hp hnd k])

/-- Filtering the chain to known entity keys changes no entity lookup. -/
theorem lookupAssoc_filter_entities (c : List (String × String)) (k : String)
    (hk : entities.contains k = true) :
    lookupAssoc (c.filter (fun kv => entities.contains kv.1)) k = lookupAssoc c k := by
  induction c with
  | nil => rfl
  | cons kv rest ih =>
    obtain ⟨k', w⟩ := kv
    by_cases hk' : entities.contains k' = true
    · rw [List.filter_cons_of_pos (by simpa using hk')]
      by_cases he : k' = k
      · subst he
        simp [lookupAssoc]
      · simp only [lookupAssoc, if_neg he]
        exact ih
    · rw [List.filter_cons_of_neg (by simpa using hk')]
      have he : k' ≠ k := fun h => hk' (h ▸ hk)
      rw [ih]
      simp only [lookupAssoc, if_neg he]

/-- Shape of a successful `EntityChain` construction. -/
theorem init_ok_shape {dt sfx : String} {ch : Option (List (String × String))} {ns : Bool}
    {ec : EntityChain} (h : EntityChain.init dt sfx ch ns = Except.ok ec) :
    ec = ⟨dt, sfx, ch⟩ := by
  unfold EntityChain.init at h
  by_cases hns : ns = false
  · rw [if_pos hns] at h
    by_cases hdt : datatypes.contains dt = false
    · rw [if_pos hdt] at h
      cases h
    · rw [if_neg hdt] at h
      cases hl : lookupAssoc suffixes dt with
      | none =>
        rw [hl] at h
        dsimp only at h
        cases h
      | some allowed =>
        rw [hl] at h
        dsimp only at h
        by_cases hs : allowed.contains sfx = false
        · rw [if_pos hs] at h
          cases h
        · rw [if_neg hs] at h
          cases h
          rfl
  · rw [if_neg hns] at h
    cases h
    rfl

/-- A non-matching series contributes nothing and leaves the rule set
untouched. -/
theorem csStep_skip (sd nm subj fl : String) (jm : List (String × String)) (bd : BidsDict)
    (series r snm : String)
    (hparse : parseSeries series = some (r, snm))
    (hfilt : bd.chain_dict.filter (fun kv => startsWithStr snm kv.1) = []) :
    csStep sd nm subj jm fl bd series = Except.ok (none, bd) := by
  simp [csStep, hparse, hfilt]

/-- A matching well-formed series emits a nonempty command and writes
the resolved run value into the stored rule object. -/
theorem csStep_emit (sd nm subj fl : String) (jm : List (String × String)) (bd : BidsDict)
    (series r snm k0 dt sfx : String) (c : List (String × String))
    (tl : List (String × EntityChain))
    (hparse : parseSeries series = some (r, snm))
    (hr : r ≠ "")
    (hfilt : bd.chain_dict.filter (fun kv => startsWithStr snm kv.1) = (k0, ⟨dt, sfx, some c⟩) :: tl)
    (hsfx : braceFree sfx = true)
    (hvals : ∀ kv ∈ c, braceFree kv.2 = true) :
    ∃ cmd, csStep sd nm subj jm fl bd series
        = Except.ok (some cmd,
            BidsDict.mk
              (setAssoc bd.chain_dict k0
                (EntityChain.mk dt sfx (some (setAssoc c "run" (pad2 (toNatDigits r.data))))))
              bd.autorun bd.autosession)
      ∧ cmd ≠ "" := by
  have hvals2 : ∀ kv ∈ setAssoc c "run" (pad2 (toNatDigits r.data)), braceFree kv.2 = true := by
    intro kv hkv
    rcases setAssoc_mem hkv with h' | h'
    · exact hvals kv h'
    · rw [h']
      exact pad2_bf _
  have hfmt := format_ok nm dt sfx (setAssoc c "run" (pad2 (toNatDigits r.data))) hvals2 hsfx
  simp only [csStep, hparse, hfilt]
  rw [if_neg hr]
  simp only [hfmt]
  refine ⟨_, rfl, ?_⟩
  repeat apply append_ne_empty
  decide

/-- C1, counterexample: with the rule pattern `bold`, the series
description `fmri_bold` contains the pattern as a substring, yet
`generate_cs_command` emits no command for it and leaves the rule set
unchanged — selection is not the substring test the claim states. -/
theorem substring_match_not_selected :
    generate_cs_command "A_20200101" "bids"
        ⟨[("bold", ⟨"func", "bold", some []⟩)], false, false⟩ [] "" ["Series_1_fmri_bold"]
      = Except.ok ("", ⟨[("bold", ⟨"func", "bold", some []⟩)], false, false⟩)
    ∧ ∃ s t, s ++ "bold".data ++ t = "fmri_bold".data :=
  ⟨rfl, "fmri_".data, [], rfl⟩

/-- C1 (amended): a series is selected for conversion by a rule exactly
when its parsed description starts with the rule's search pattern
(`series_name.startswith(pattern)`): the emitted command for the series
is nonempty precisely in that case. -/
theorem cs_selection_requires_leading_pattern (sd bids fl pat desc r series dt sfx : String)
    (c : List (String × String)) (ar as : Bool)
    (hparse : parseSeries series = some (r, desc))
    (hr : r ≠ "")
    (hsfx : braceFree sfx = true)
    (hvals : ∀ kv ∈ c, braceFree kv.2 = true) :
    ∃ out, generate_cs_command sd bids ⟨[(pat, ⟨dt, sfx, some c⟩)], ar, as⟩ [] fl [series]
        = Except.ok out ∧ (out.1 ≠ "" ↔ startsWithStr desc pat = true) := by
  by_cases hp : startsWithStr desc pat = true
  · have hfilt : ([(pat, (⟨dt, sfx, some c⟩ : EntityChain))].filter
        (fun kv => startsWithStr desc kv.1)) = (pat, (⟨dt, sfx, some c⟩ : EntityChain)) :: [] := by
      simp [hp]
    obtain ⟨cmd, hstep, hne⟩ :=
      csStep_emit sd (optName (get_subject_name sd))
        (bids ++ "/sub-" ++ optName (get_subject_name sd)) fl []
        ⟨[(pat, ⟨dt, sfx, some c⟩)], ar, as⟩ series r desc pat dt sfx c []
        hparse hr hfilt hsfx hvals
    have hloop : csLoop sd (optName (get_subject_name sd))
        (bids ++ "/sub-" ++ optName (get_subject_name sd)) [] fl
        ⟨[(pat, ⟨dt, sfx, some c⟩)], ar, as⟩ [series]
        = Except.ok ([cmd], BidsDict.mk
            (setAssoc [(pat, ⟨dt, sfx, some c⟩)] pat
              (EntityChain.mk dt sfx (some (setAssoc c "run" (pad2 (toNatDigits r.data))))))
            ar as) := by
      simp only [csLoop, hstep, List.append_nil, List.nil_append]
    refine ⟨(cmd, BidsDict.mk
        (setAssoc [(pat, ⟨dt, sfx, some c⟩)] pat
          (EntityChain.mk dt sfx (some (setAssoc c "run" (pad2 (toNatDigits r.data))))))
        ar as), ?_, ?_⟩
    · simp only [generate_cs_command, hloop]
      have hj : joinStr [cmd] = cmd := by
        simp [joinStr, append_empty_str]
      rw [hj]
    · simp [hp, hne]
  · have hpf : startsWithStr desc pat = false := by
      revert hp
      cases startsWithStr desc pat <;> simp
    have hfilt : ([(pat, (⟨dt, sfx, some c⟩ : EntityChain))].filter
        (fun kv => startsWithStr desc kv.1)) = [] := by
      simp [hpf]
    have hstep := csStep_skip sd (optName (get_subject_name sd))
      (bids ++ "/sub-" ++ optName (get_subject_name sd)) fl []
      ⟨[(pat, ⟨dt, sfx, some c⟩)], ar, as⟩ series r desc hparse hfilt
    have hloop : csLoop sd (optName (get_subject_name sd))
        (bids ++ "/sub-" ++ optName (get_subject_name sd)) [] fl
        ⟨[(pat, ⟨dt, sfx, some c⟩)], ar, as⟩ [series]
        = Except.ok ([], ⟨[(pat, ⟨dt, sfx, some c⟩)], ar, as⟩) := by
      simp only [csLoop, hstep, List.append_nil, List.nil_append]
    refine ⟨("", ⟨[(pat, ⟨dt, sfx, some c⟩)], ar, as⟩), ?_, ?_⟩
    · simp only [generate_cs_command, hloop]
      rfl
    · simp [hpf]

/-- C1 witness: a rule pattern that is a leading substring of the
description is selected. -/
theorem cs_selection_requires_leading_pattern_witness :
    ∃ out, generate_cs_command "A_20200101" "bids"
        ⟨[("loc", ⟨"anat", "T1w", some []⟩)], false, false⟩ [] "" ["Series_1_localizer"]
        = Except.ok out ∧ (out.1 ≠ "" ↔ startsWithStr "localizer" "loc" = true) :=
  cs_selection_requires_leading_pattern "A_20200101" "bids" "" "loc" "localizer" "1"
    "Series_1_localizer" "anat" "T1w" [] false false rfl (by decide) (by decide)
    (by intro kv hkv; simp at hkv)

/-- C2: emitting a conversion command writes the resolved run value
through the shared rule object: after `generate_cs_command` returns, the
rule's entity chain holds `run = 03` instead of its pre-emission value,
so the chain does not equal its pre-emission value. -/
theorem generate_cs_mutates_rule_chain :
    ∃ cmd, generate_cs_command "A_20200101" "bids"
        ⟨[("bold", ⟨"func", "bold", some []⟩)], true, false⟩ [] "" ["Series_3_bold"]
        = Except.ok (cmd, ⟨[("bold", ⟨"func", "bold", some [("run", "03")]⟩)], true, false⟩)
      ∧ (⟨[("bold", ⟨"func", "bold", some [("run", "03")]⟩)], true, false⟩ : BidsDict)
          ≠ ⟨[("bold", ⟨"func", "bold", some []⟩)], true, false⟩ :=
  ⟨_, rfl, by decide⟩

/-- C3, counterexample: `meg` is in the datatype enumeration but has no
suffix table, so rule construction fails with `KeyError`, not with the
`ValueError` the claim requires for every invalid pair. -/
theorem entity_chain_meg_keyerror :
    "meg" ∈ datatypes
    ∧ EntityChain.init "meg" "T1w" none false = Except.error (PyError.keyError "meg") :=
  ⟨by decide, rfl⟩

/-- String-list membership agrees with the boolean `contains`. -/
theorem containsTrue_iff (l : List String) (a : String) : l.contains a = true ↔ a ∈ l := by
  simp

/-- String-list non-membership agrees with `contains = false`. -/
theorem containsFalse_iff (l : List String) (a : String) : l.contains a = false ↔ a ∉ l := by
  constructor
  · intro h hm
    have hc := (containsTrue_iff l a).mpr hm
    rw [hc] at h
    exact Bool.noConfusion h
  · intro hm
    cases h : l.contains a
    · rfl
    · exact absurd ((containsTrue_iff l a).mp h) hm

/-- Construction with `nonstandard=true` skips all validation. -/
theorem init_true_ok (dt sfx : String) (ch : Option (List (String × String))) :
    EntityChain.init dt sfx ch true = Except.ok ⟨dt, sfx, ch⟩ := by
  unfold EntityChain.init
  rw [if_neg (by decide : ¬(true = false))]

/-- Construction failure on an unknown datatype. -/
theorem init_dt_bad (dt sfx : String) (ch : Option (List (String × String)))
    (h : datatypes.contains dt = false) :
    EntityChain.init dt sfx ch false
      = Except.error (.valueError ("Unknown data type " ++ dt)) := by
  unfold EntityChain.init
  rw [if_pos rfl, if_pos h]

/-- Construction failure on a datatype without a suffix table. -/
theorem init_keyless (dt sfx : String) (ch : Option (List (String × String)))
    (h : datatypes.contains dt = true) (hl : lookupAssoc suffixes dt = none) :
    EntityChain.init dt sfx ch false = Except.error (.keyError dt) := by
  unfold EntityChain.init
  rw [if_pos rfl, if_neg (by rw [h]; exact (by decide : ¬(true = false))), hl]

/-- Construction failure on a suffix outside the datatype's table. -/
theorem init_sfx_bad (dt sfx : String) (ch : Option (List (String × String)))
    (allowed : List String)
    (h : datatypes.contains dt = true) (hl : lookupAssoc suffixes dt = some allowed)
    (hs : allowed.contains sfx = false) :
    EntityChain.init dt sfx ch false
      = Except.error (.valueError ("Unknown suffix " ++ sfx ++ " for data type " ++ dt)) := by
  unfold EntityChain.init
  rw [if_pos rfl, if_neg (by rw [h]; exact (by decide : ¬(true = false))), hl]
  dsimp only
  rw [if_pos hs]

/-- Successful standard construction. -/
theorem init_ok (dt sfx : String) (ch : Option (List (String × String)))
    (allowed : List String)
    (h : datatypes.contains dt = true) (hl : lookupAssoc suffixes dt = some allowed)
    (hs : allowed.contains sfx = true) :
    EntityChain.init dt sfx ch false = Except.ok ⟨dt, sfx, ch⟩ := by
  unfold EntityChain.init
  rw [if_pos rfl, if_neg (by rw [h]; exact (by decide : ¬(true = false))), hl]
  dsimp only
  rw [if_neg (by rw [hs]; exact (by decide : ¬(true = false)))]

/-- C3 (amended): with `nonstandard=true` construction always succeeds;
with `nonstandard=false` it succeeds exactly when the datatype is
enumerated and the suffix belongs to its suffix table; an unknown
datatype fails with `ValueError`; an enumerated datatype without a
suffix table (meg, eeg, ieeg, beh) fails with `KeyError`; a datatype
with a table but a suffix outside it fails with `ValueError`. -/
theorem entity_chain_validation_amended (dt sfx : String)
    (ch : Option (List (String × String))) :
    EntityChain.init dt sfx ch true = Except.ok ⟨dt, sfx, ch⟩
    ∧ ((EntityChain.init dt sfx ch false).isOk = true
        ↔ dt ∈ datatypes ∧ sfx ∈ (lookupAssoc suffixes dt).getD [])
    ∧ (dt ∉ datatypes →
        EntityChain.init dt sfx ch false
          = Except.error (.valueError ("Unknown data type " ++ dt)))
    ∧ (dt ∈ datatypes → lookupAssoc suffixes dt = none →
        EntityChain.init dt sfx ch false = Except.error (.keyError dt))
    ∧ (∀ allowed, dt ∈ datatypes → lookupAssoc suffixes dt = some allowed → sfx ∉ allowed →
        EntityChain.init dt sfx ch false
          = Except.error (.valueError ("Unknown suffix " ++ sfx ++ " for data type " ++ dt))) := by
  refine ⟨init_true_ok dt sfx ch, ?_, ?_, ?_, ?_⟩
  · by_cases hdm : dt ∈ datatypes
    · cases hl : lookupAssoc suffixes dt with
      | none =>
        rw [init_keyless dt sfx ch ((containsTrue_iff _ _).mpr hdm) hl]
        simp [Except.isOk, Except.toBool]
      | some allowed =>
        by_cases hsm : sfx ∈ allowed
        · rw [init_ok dt sfx ch allowed ((containsTrue_iff _ _).mpr hdm) hl
              ((containsTrue_iff _ _).mpr hsm)]
          simp [Except.isOk, Except.toBool, hdm, hsm]
        · rw [init_sfx_bad dt sfx ch allowed ((containsTrue_iff _ _).mpr hdm) hl
              ((containsFalse_iff _ _).mpr hsm)]
          simp [Except.isOk, Except.toBool, hsm]
    · rw [init_dt_bad dt sfx ch ((containsFalse_iff _ _).mpr hdm)]
      simp [Except.isOk, Except.toBool, hdm]
  · intro hdm
    exact init_dt_bad dt sfx ch ((containsFalse_iff _ _).mpr hdm)
  · intro hdm hl
    exact init_keyless dt sfx ch ((containsTrue_iff _ _).mpr hdm) hl
  · intro allowed hdm hl hsm
    exact init_sfx_bad dt sfx ch allowed ((containsTrue_iff _ _).mpr hdm) hl
      ((containsFalse_iff _ _).mpr hsm)

/-- C3 witness: `perf` has a suffix table but is not an enumerated
datatype, so construction fails with the unknown-datatype ValueError. -/
theorem entity_chain_validation_amended_witness :
    EntityChain.init "perf" "asl" none false
      = Except.error (PyError.valueError ("Unknown data type " ++ "perf")) :=
  (entity_chain_validation_amended "perf" "asl" none).2.2.1 (by decide)

/-- C4: with chain keys drawn from the entity enumeration and brace-free
values, the generated filename is `sub-<name>_` followed by one
`key-value_` segment per present key in the enumeration's canonical
order, then the suffix; and the output is invariant under permutation of
the chain's insertion order. -/
theorem format_string_canonical_order (name dt sfx : String) (c : List (String × String))
    (_hkeys : ∀ kv ∈ c, kv.1 ∈ entities)
    (hbfv : ∀ kv ∈ c, braceFree kv.2 = true)
    (hbfs : braceFree sfx = true) :
    pyFormat (get_format_string ⟨dt, sfx, some c⟩) [name]
      = some ("sub-" ++ name ++ "_" ++ joinStr (entitySegments c) ++ sfx)
    ∧ ∀ c', c.Perm c' → (c.map Prod.fst).Nodup →
        pyFormat (get_format_string ⟨dt, sfx, some c'⟩) [name]
          = some ("sub-" ++ name ++ "_" ++ joinStr (entitySegments c) ++ sfx) := by
  refine ⟨format_ok name dt sfx c hbfv hbfs, ?_⟩
  intro c' hp hnd
  have hbfv' : ∀ kv ∈ c', braceFree kv.2 = true := fun kv hkv => hbfv kv (hp.mem_iff.mpr hkv)
  rw [format_ok name dt sfx c' hbfv' hbfs, entitySegments_perm hp hnd]

/-- C4 witness: the chain inserted as run before task still renders the
canonical task-before-run order: `sub-A1_task-rest_run-01_bold`. -/
theorem format_string_canonical_order_witness :
    pyFormat (get_format_string ⟨"func", "bold", some [("run", "01"), ("task", "rest")]⟩) ["A1"]
      = some "sub-A1_task-rest_run-01_bold" := by
  have h := (format_string_canonical_order "A1" "func" "bold" [("task", "rest"), ("run", "01")]
      (by decide) (by decide) (by decide)).2
      [("run", "01"), ("task", "rest")] (by decide) (by decide)
  rw [h]
  decide

/-- C5, counterexample: a chain key outside the entity enumeration is
silently omitted: the filename for the chain `foo: bar` is `sub-A1_bold`
and the pair appears nowhere in it. -/
theorem unknown_key_omitted :
    pyFormat (get_format_string ⟨"func", "bold", some [("foo", "bar")]⟩) ["A1"]
      = some "sub-A1_bold"
    ∧ ¬ ∃ s t, s ++ "foo-bar".data ++ t = "sub-A1_bold".data := by
  refine ⟨rfl, fun hex => ?_⟩
  have hc := (containsStr_iff "foo-bar".data "sub-A1_bold".data).mpr hex
  have hf : containsStr "foo-bar".data "sub-A1_bold".data = false := by decide
  rw [hf] at hc
  exact Bool.noConfusion hc

/-- C5 (amended): chain keys outside the entity enumeration never reach
the generated filename: the format string equals that of the chain
restricted to enumerated keys, so unknown keys are dropped, not
appended. -/
theorem format_string_drops_unknown_keys (dt sfx : String) (c : List (String × String)) :
    get_format_string ⟨dt, sfx, some c⟩
      = get_format_string ⟨dt, sfx, some (c.filter (fun kv => entities.contains kv.1))⟩ := by
  rw [get_format_string_eq, get_format_string_eq]
  have hseg : entitySegments (c.filter (fun kv => entities.contains kv.1))
      = entitySegments c := by
    unfold entitySegments
    refine filterMap_congr_mem _ _ _ (fun k hk => ?_)
    rw [lookupAssoc_filter_entities c k ((containsTrue_iff _ _).mpr hk)]
  rw [hseg]

/-- C6, counterexample: with autosession enabled, adding a rule whose
chain lacks a session key stores it with no session key injected. -/
theorem autosession_no_injection :
    BidsDict.add ⟨[], false, true⟩ "x" "func" "bold" (some []) false
      = Except.ok ⟨[("x", ⟨"func", "bold", some []⟩)], false, true⟩
    ∧ lookupAssoc ([] : List (String × String)) "ses" = none :=
  ⟨rfl, rfl⟩

/-- C6 (amended): `BidsDict.add` never injects a session key, whatever
the autosession flag: when the supplied chain has no `ses` key, the
stored rule's chain still has none. -/
theorem add_never_injects_session (bd : BidsDict) (sd dt sfx : String)
    (c : List (String × String)) (ns : Bool) (bd' : BidsDict)
    (hses : lookupAssoc c "ses" = none)
    (hadd : BidsDict.add bd sd dt sfx (some c) ns = Except.ok bd') :
    ∃ ec c', lookupAssoc bd'.chain_dict sd = some ec ∧ ec.chain = some c'
      ∧ lookupAssoc c' "ses" = none := by
  unfold BidsDict.add at hadd
  cases hinit : EntityChain.init dt sfx (some c) ns with
  | error e =>
    rw [hinit] at hadd
    cases hadd
  | ok ec =>
    have hec := init_ok_shape hinit
    subst hec
    rw [hinit] at hadd
    dsimp only at hadd
    by_cases har : bd.autorun = true
    · rw [if_pos har] at hadd
      cases hadd
      refine ⟨⟨dt, sfx, some (setAssoc c "run" "\x7b\x7d")⟩,
        setAssoc c "run" "\x7b\x7d", ?_, rfl, ?_⟩
      · exact lookupAssoc_setAssoc_self _ sd _
      · rw [lookupAssoc_setAssoc_ne c "run" "ses" _ (by decide)]
        exact hses
    · rw [if_neg har] at hadd
      cases hadd
      refine ⟨⟨dt, sfx, some c⟩, c, ?_, rfl, hses⟩
      exact lookupAssoc_setAssoc_self _ sd _

/-- C6 witness: even with autorun and autosession both enabled, the
stored chain gains a run placeholder but no session key. -/
theorem add_never_injects_session_witness :
    ∃ ec c', lookupAssoc [("x", (⟨"func", "bold", some [("run", "\x7b\x7d")]⟩ : EntityChain))] "x"
        = some ec
      ∧ ec.chain = some c' ∧ lookupAssoc c' "ses" = none :=
  add_never_injects_session ⟨[], true, true⟩ "x" "func" "bold" [] false
    ⟨[("x", ⟨"func", "bold", some [("run", "\x7b\x7d")]⟩)], true, true⟩ rfl rfl

/-- C7, counterexample: with no subject-pattern directory in the tree,
`convert` raises ValueError instead of warning and returning. -/
theorem convert_raises_without_subjects :
    convert [] "bids" ⟨[], true, false⟩ true [] "" ["dcm2niix", "jq"] none
      = Except.error (PyError.valueError "Unable to find subject level directories") := rfl

/-- C7 (amended): with zero directories matching the subject pattern,
`Converter.__init__` reports the warning and returns without raising,
while `convert` and `write_slurm_script` raise ValueError. -/
theorem no_subject_dirs_behavior (tree : List SubjDir) (bidsdir : String) (bd : BidsDict)
    (pf : Bool) (jm : List (String × String)) (fl : String) (lmod : List String)
    (parts : Option (List PartRow))
    (h : tree.filter (fun s => matchesSubject s.name) = []) :
    converter_init tree = Except.ok ⟨none, true, []⟩
    ∧ convert tree bidsdir bd pf jm fl lmod parts
        = Except.error (.valueError "Unable to find subject level directories")
    ∧ write_slurm_script tree bidsdir bd pf jm fl lmod parts
        = Except.error (.valueError "Unable to find subject level directories") := by
  refine ⟨?_, ?_, ?_⟩
  · simp only [converter_init, h]
    rfl
  · simp only [convert, h]
    rfl
  · simp only [write_slurm_script, h]
    rfl

/-- C7 witness: a tree whose only directory lacks the 8-digit date. -/
theorem no_subject_dirs_behavior_witness :
    converter_init [⟨"nodate", [], "F", 0⟩] = Except.ok ⟨none, true, []⟩
    ∧ convert [⟨"nodate", [], "F", 0⟩] "bids" ⟨[], true, false⟩ true [] "" [] none
        = Except.error (.valueError "Unable to find subject level directories")
    ∧ write_slurm_script [⟨"nodate", [], "F", 0⟩] "bids" ⟨[], true, false⟩ true [] "" [] none
        = Except.error (.valueError "Unable to find subject level directories") :=
  no_subject_dirs_behavior [⟨"nodate", [], "F", 0⟩] "bids" ⟨[], true, false⟩ true [] "" []
    none (by decide)

/-- C8: a study holding the same description twice yields a count-2
duplicate warning from the converter scan, and both duplicate series are
still selected: the command loop emits exactly two commands. -/
theorem duplicate_series_warned_and_converted
    (sd s1 s2 d pat r1 r2 sx fl nm subj dt sfx : String) (ag : Nat)
    (c : List (String × String)) (ar as : Bool)
    (hm : matchesSubject sd = true)
    (hs1 : parseSeries s1 = some (r1, d)) (hs2 : parseSeries s2 = some (r2, d))
    (hr1 : r1 ≠ "") (hr2 : r2 ≠ "")
    (hsfx : braceFree sfx = true)
    (hvals : ∀ kv ∈ c, braceFree kv.2 = true)
    (hpref : startsWithStr d pat = true) :
    (∃ st, converter_init [⟨sd, [s1, s2], sx, ag⟩] = Except.ok st
        ∧ (2, d, sd) ∈ st.dup_warnings)
    ∧ (∃ cmds bd', csLoop sd nm subj [] fl ⟨[(pat, ⟨dt, sfx, some c⟩)], ar, as⟩ [s1, s2]
          = Except.ok (cmds, bd') ∧ cmds.length = 2) := by
  constructor
  · obtain ⟨g, hg⟩ : ∃ g, subjAux2 sd.data = some g := by
      unfold matchesSubject at hm
      exact Option.isSome_iff_exists.mp hm
    have hfilter : [(⟨sd, [s1, s2], sx, ag⟩ : SubjDir)].filter (fun p => matchesSubject p.name)
        = [⟨sd, [s1, s2], sx, ag⟩] := by
      simp [hm]
    have hmap : mapE (fun p =>
        match subjAux2 p.name.data with
        | none => Except.error (PyError.attributeError "NoneType object has no attribute group")
        | some g =>
          match mapE (fun e =>
            match parseSeries e with
            | none => Except.error (PyError.attributeError "NoneType object has no attribute group")
            | some r => Except.ok r.2) p.series with
          | .error e => Except.error e
          | .ok series => Except.ok (⟨p.name, String.mk g.1, String.mk g.2, series⟩ : Study))
        [(⟨sd, [s1, s2], sx, ag⟩ : SubjDir)]
        = Except.ok [⟨sd, String.mk g.1, String.mk g.2, [d, d]⟩] := by
      simp only [mapE, hg, hs1, hs2]
    have huniq : uniq [d, d] = [d] := by
      simp [uniq]
    have hsort : sortStr [d] = [d] := by
      simp [sortStr, insortStr]
    have hdup : dup_report [⟨sd, String.mk g.1, String.mk g.2, [d, d]⟩] [d] = [(2, d, sd)] := by
      simp [dup_report, List.count_cons]
    refine ⟨⟨some [⟨sd, String.mk g.1, String.mk g.2, [d, d]⟩], false, [(2, d, sd)]⟩, ?_, by simp⟩
    unfold converter_init
    rw [hfilter]
    rw [if_neg (by simp)]
    rw [hmap]
    dsimp only
    rw [show ([⟨sd, String.mk g.1, String.mk g.2, [d, d]⟩] : List Study).foldr
          (fun st acc => st.series ++ acc) ([] : List String) = [d, d] by simp]
    rw [huniq, hsort, hdup]
  · have hfilt1 : [(pat, (⟨dt, sfx, some c⟩ : EntityChain))].filter
        (fun kv => startsWithStr d kv.1) = (pat, (⟨dt, sfx, some c⟩ : EntityChain)) :: [] := by
      simp [hpref]
    obtain ⟨cmd1, hstep1, hne1⟩ :=
      csStep_emit sd nm subj fl [] ⟨[(pat, ⟨dt, sfx, some c⟩)], ar, as⟩ s1 r1 d pat dt sfx c []
        hs1 hr1 hfilt1 hsfx hvals
    have hset1 : setAssoc [(pat, (⟨dt, sfx, some c⟩ : EntityChain))] pat
        (EntityChain.mk dt sfx (some (setAssoc c "run" (pad2 (toNatDigits r1.data)))))
        = [(pat, ⟨dt, sfx, some (setAssoc c "run" (pad2 (toNatDigits r1.data)))⟩)] := by
      simp [setAssoc]
    rw [hset1] at hstep1
    have hvals2 : ∀ kv ∈ setAssoc c "run" (pad2 (toNatDigits r1.data)),
        braceFree kv.2 = true := by
      intro kv hkv
      rcases setAssoc_mem hkv with h' | h'
      · exact hvals kv h'
      · rw [h']
        exact pad2_bf _
    have hfilt2 : [(pat, (⟨dt, sfx, some (setAssoc c "run" (pad2 (toNatDigits r1.data)))⟩
        : EntityChain))].filter (fun kv => startsWithStr d kv.1)
        = (pat, (⟨dt, sfx, some (setAssoc c "run" (pad2 (toNatDigits r1.data)))⟩
            : EntityChain)) :: [] := by
      simp [hpref]
    obtain ⟨cmd2, hstep2, hne2⟩ :=
      csStep_emit sd nm subj fl []
        ⟨[(pat, ⟨dt, sfx, some (setAssoc c "run" (pad2 (toNatDigits r1.data)))⟩)], ar, as⟩
        s2 r2 d pat dt sfx (setAssoc c "run" (pad2 (toNatDigits r1.data))) []
        hs2 hr2 hfilt2 hsfx hvals2
    have hset2 : setAssoc
        [(pat, (⟨dt, sfx, some (setAssoc c "run" (pad2 (toNatDigits r1.data)))⟩ : EntityChain))]
        pat (EntityChain.mk dt sfx (some (setAssoc (setAssoc c "run" (pad2 (toNatDigits r1.data)))
          "run" (pad2 (toNatDigits r2.data)))))
        = [(pat, ⟨dt, sfx, some (setAssoc (setAssoc c "run" (pad2 (toNatDigits r1.data)))
            "run" (pad2 (toNatDigits r2.data)))⟩)] := by
      simp [setAssoc]
    rw [hset2] at hstep2
    refine ⟨[cmd1, cmd2],
      ⟨[(pat, ⟨dt, sfx, some (setAssoc (setAssoc c "run" (pad2 (toNatDigits r1.data)))
          "run" (pad2 (toNatDigits r2.data)))⟩)], ar, as⟩, ?_, rfl⟩
    simp only [csLoop, hstep1, hstep2, List.append_nil, List.nil_append, List.cons_append]

/-- C8 witness: two localizer series in one study. -/
theorem duplicate_series_warned_and_converted_witness :
    (∃ st, converter_init [⟨"A_20200101", ["Series_1_localizer", "Series_2_localizer"], "F", 33⟩]
        = Except.ok st ∧ (2, "localizer", "A_20200101") ∈ st.dup_warnings)
    ∧ (∃ cmds bd', csLoop "A_20200101" "A" "bids/sub-A" [] ""
          ⟨[("localizer", ⟨"anat", "T1w", some []⟩)], false, false⟩
          ["Series_1_localizer", "Series_2_localizer"]
          = Except.ok (cmds, bd') ∧ cmds.length = 2) :=
  duplicate_series_warned_and_converted "A_20200101" "Series_1_localizer" "Series_2_localizer"
    "localizer" "localizer" "1" "2" "F" "" "A" "bids/sub-A" "anat" "T1w" 33 [] false false
    (by decide) (by decide) (by decide) (by decide) (by decide) (by decide)
    (by intro kv hkv; simp at hkv) (by decide)

/-- C9: appending a participant already present in the registry file
leaves the file unchanged, so a second append of the same subject after
a first one is the identity and exactly one row carries its id. -/
theorem append_participant_idempotent (name sex sex2 : String) (age age2 : Nat)
    (rows : List PartRow) (h : ("sub-" ++ name) ∉ rows.map PartRow.pid) :
    ∃ rows1, append_participant name sex age (some rows) = some rows1
      ∧ append_participant name sex2 age2 (some rows1) = some rows1
      ∧ (rows1.map PartRow.pid).count ("sub-" ++ name) = 1 := by
  have hc : (rows.map PartRow.pid).contains ("sub-" ++ name) = false :=
    (containsFalse_iff _ _).mpr h
  refine ⟨rows ++ [PartRow.mk ("sub-" ++ name) sex age], ?_, ?_, ?_⟩
  · show (if (rows.map PartRow.pid).contains ("sub-" ++ name) = true
        then some rows else some (rows ++ [PartRow.mk ("sub-" ++ name) sex age]))
      = some (rows ++ [PartRow.mk ("sub-" ++ name) sex age])
    rw [hc]
    simp
  · have hc2 : (((rows ++ [PartRow.mk ("sub-" ++ name) sex age]).map PartRow.pid).contains
        ("sub-" ++ name)) = true := by
      simp
    show (if ((rows ++ [PartRow.mk ("sub-" ++ name) sex age]).map PartRow.pid).contains
          ("sub-" ++ name) = true
        then some (rows ++ [PartRow.mk ("sub-" ++ name) sex age])
        else some ((rows ++ [PartRow.mk ("sub-" ++ name) sex age])
          ++ [PartRow.mk ("sub-" ++ name) sex2 age2]))
      = some (rows ++ [PartRow.mk ("sub-" ++ name) sex age])
    rw [hc2]
    simp
  · rw [List.map_append, List.count_append]
    have h0 : (rows.map PartRow.pid).count ("sub-" ++ name) = 0 := List.count_eq_zero.mpr h
    simp [h0]

/-- C9 witness: appending subject A1 twice to an empty registry leaves
one row. -/
theorem append_participant_idempotent_witness :
    ∃ rows1, append_participant "A1" "F" 30 (some []) = some rows1
      ∧ append_participant "A1" "M" 31 (some rows1) = some rows1
      ∧ (rows1.map PartRow.pid).count ("sub-" ++ "A1") = 1 :=
  append_participant_idempotent "A1" "F" "M" 30 31 [] (by simp)

/-- C10: under autorun (the constructor default), adding a rule without
an entity-chain dictionary raises TypeError whenever the EntityChain
construction itself succeeds, because the run placeholder is assigned
into the absent chain. -/
theorem add_without_chain_type_error (bd : BidsDict) (sd dt sfx : String) (ns : Bool)
    (hrun : bd.autorun = true)
    (hok : (EntityChain.init dt sfx none ns).isOk = true) :
    BidsDict.add bd sd dt sfx none ns
      = Except.error (.typeError "NoneType object does not support item assignment") := by
  cases hinit : EntityChain.init dt sfx none ns with
  | error e =>
    rw [hinit] at hok
    simp [Except.isOk, Except.toBool] at hok
  | ok ec =>
    have hec := init_ok_shape hinit
    subst hec
    unfold BidsDict.add
    rw [hinit]
    dsimp only
    rw [if_pos hrun]

/-- C10 witness: the default-autorun dictionary rejects a chainless
rule with TypeError. -/
theorem add_without_chain_type_error_witness :
    BidsDict.add ⟨[], true, false⟩ "x" "func" "bold" none false
      = Except.error (PyError.typeError "NoneType object does not support item assignment") :=
  add_without_chain_type_error ⟨[], true, false⟩ "x" "func" "bold" false rfl (by decide)

end Mrpyconvert
